import Mathlib

/-!
# Verification of the `reactive-table` webcomponent (`src/index.js`)

A shallow embedding of the component's logic:

* `JSVal`, `truthy` — the JavaScript values flowing through table cells and
  JavaScript truthiness, as used by `if (!row[header.key])`.
* `RowMap`, `Row` — a flat record row, and the simple/grouped row distinction
  made at runtime by `Array.isArray(row)`.
* `Header` — a schema column descriptor (`key`, `name`, `type`, `default`).
* `getValue` — the per-cell value formatter `_getValue`.
* `momentFormat` / `parseISO` / `isoString` / `applyFormat` — a model of the
  `moment` library restricted to ISO-8601 inputs and `YYYY/MM/DD/HH/mm/ss`
  format tokens, as the component uses it (UTC, per the documented contract).
* `getHeaders`, `getRows`, `render` — the render planner.
* `handleToggleExpandClick` — the imperative DOM toggle on expander click.
* `Component`, `mutateData`, `setData`, … — the mutation-watcher state machine
  (`_watchObject`, `constructor`, `willUpdate`).
-/

/-- JavaScript values as they occur in table data: `null`/`undefined` at a key
is modelled by an absent lookup (`Option.none`), so `JSVal` itself covers
null, booleans, numbers and strings. -/
inductive JSVal where
  | null : JSVal
  | bool (b : Bool) : JSVal
  | num (n : Int) : JSVal
  | str (s : String) : JSVal
deriving DecidableEq, Repr

/-- JavaScript truthiness of a value: `null`, `false`, `0` and `""` are falsy. -/
def truthy : JSVal → Bool
  | .null => false
  | .bool b => b
  | .num n => n ≠ 0
  | .str s => s ≠ ""

/-- JavaScript string coercion, for the places the component feeds a raw value
to a string sink (`unsafeStatic`, the `img src` attribute). -/
def jsToString : JSVal → String
  | .null => "null"
  | .bool true => "true"
  | .bool false => "false"
  | .num n => toString n
  | .str s => s

/-- A simple row: a record mapping column keys to raw values. -/
abbrev RowMap := List (String × JSVal)

/-- Property lookup `row[key]`: `none` models JavaScript `undefined`. -/
def RowMap.get (r : RowMap) (k : String) : Option JSVal :=
  (r.find? (fun p => p.1 = k)).map (fun p => p.2)

/-- `!row[header.key]`: the lookup is absent, or the value is falsy. -/
def falsyAt (r : RowMap) (k : String) : Bool :=
  match r.get k with
  | none => true
  | some v => !truthy v

/-- A data row is either a flat record (simple row) or an array of records
(grouped row with hidden sub-rows), distinguished in the source by
`Array.isArray(row)`. -/
inductive Row where
  | simple (r : RowMap) : Row
  | grouped (subs : List RowMap) : Row
deriving DecidableEq, Repr

/-- `Array.isArray(row)`. -/
def Row.isGrouped : Row → Bool
  | .simple _ => false
  | .grouped _ => true

/-- A schema column descriptor: `{key, name, type, default}`.  A missing or
null `default` is `none` (the source reads it with `header.default ?? ''`). -/
structure Header where
  key : String
  name : String
  type : String
  default : Option JSVal
deriving DecidableEq, Repr

/- ## Model of the `moment` date library (ISO-8601 inputs, UTC) -/

/-- A parsed calendar date/time. -/
structure DateTime where
  year : Nat
  month : Nat
  day : Nat
  hour : Nat
  minute : Nat
  second : Nat
  ms : Nat
deriving DecidableEq, Repr

/-- A single decimal digit. -/
def digit (c : Char) : Option Nat :=
  if c.isDigit then some (c.toNat - 48) else none

/-- Two decimal digits. -/
def digits2 (a b : Char) : Option Nat := do
  let x ← digit a
  let y ← digit b
  pure (10 * x + y)

/-- Four decimal digits. -/
def digits4 (a b c d : Char) : Option Nat := do
  let x ← digits2 a b
  let y ← digits2 c d
  pure (100 * x + y)

/-- Parse the time-of-day tail of an ISO-8601 string: empty, `Z`,
or `.sssZ` / `.sss` after seconds. -/
def parseMsTail : List Char → Option Nat
  | [] => some 0
  | ['Z'] => some 0
  | ['.', a, b, c] => do
      let x ← digits2 a b
      let y ← digit c
      pure (10 * x + y)
  | ['.', a, b, c, 'Z'] => do
      let x ← digits2 a b
      let y ← digit c
      pure (10 * x + y)
  | _ => none

/-- Parse an ISO-8601 date or date/time string such as
`2024-01-15` or `2024-01-15T00:00:00Z` or `2024-01-15T00:00:00.000Z`. -/
def parseISOChars : List Char → Option DateTime
  | y1 :: y2 :: y3 :: y4 :: '-' :: mo1 :: mo2 :: '-' :: d1 :: d2 :: rest => do
      let y ← digits4 y1 y2 y3 y4
      let mo ← digits2 mo1 mo2
      let d ← digits2 d1 d2
      match rest with
      | [] => pure ⟨y, mo, d, 0, 0, 0, 0⟩
      | 'T' :: h1 :: h2 :: ':' :: mi1 :: mi2 :: ':' :: s1 :: s2 :: tail => do
          let h ← digits2 h1 h2
          let mi ← digits2 mi1 mi2
          let s ← digits2 s1 s2
          let milli ← parseMsTail tail
          pure ⟨y, mo, d, h, mi, s, milli⟩
      | _ => none
  | _ => none

/-- Parse an ISO-8601 string. -/
def parseISO (s : String) : Option DateTime := parseISOChars s.toList

/-- Zero-pad a number to a given width. -/
def padNum (width n : Nat) : List Char :=
  let ds := Nat.toDigits 10 n
  List.replicate (width - ds.length) '0' ++ ds

/-- `moment(...).toISOString()`: canonical ISO-8601 with milliseconds, UTC. -/
def isoString (dt : DateTime) : String :=
  String.mk (padNum 4 dt.year ++ '-' :: padNum 2 dt.month ++ '-' :: padNum 2 dt.day
    ++ 'T' :: padNum 2 dt.hour ++ ':' :: padNum 2 dt.minute ++ ':' :: padNum 2 dt.second
    ++ '.' :: padNum 3 dt.ms ++ ['Z'])

/-- `moment(...).format(fmt)` on the tokens `YYYY MM DD HH mm ss`;
other characters are copied verbatim. -/
def applyFormat (dt : DateTime) : List Char → List Char
  | 'Y' :: 'Y' :: 'Y' :: 'Y' :: rest => padNum 4 dt.year ++ applyFormat dt rest
  | 'M' :: 'M' :: rest => padNum 2 dt.month ++ applyFormat dt rest
  | 'D' :: 'D' :: rest => padNum 2 dt.day ++ applyFormat dt rest
  | 'H' :: 'H' :: rest => padNum 2 dt.hour ++ applyFormat dt rest
  | 'm' :: 'm' :: rest => padNum 2 dt.minute ++ applyFormat dt rest
  | 's' :: 's' :: rest => padNum 2 dt.second ++ applyFormat dt rest
  | c :: rest => c :: applyFormat dt rest
  | [] => []

/-- The date branch of `_getValue`:
`this.dateFormat ? moment(v).format(this.dateFormat) : moment(v).toISOString()`.
`dateFormat` is a string property, absent by default; an empty string is falsy,
so both `none` and `some ""` fall back to ISO-8601. An unparseable value
renders as moment's `"Invalid date"`. -/
def momentFormat (dateFormat : Option String) (v : JSVal) : String :=
  match v with
  | .str s =>
      match parseISO s with
      | some dt =>
          match dateFormat with
          | some f => if f = "" then isoString dt else String.mk (applyFormat dt f.toList)
          | none => isoString dt
      | none => "Invalid date"
  | _ => "Invalid date"

/- ## The value formatter `_getValue` -/

/-- What `_getValue` can return: a plain value (raw value, or the default
fallback), trusted markup (`unsafeStatic`), or an image element. -/
inductive DisplayValue where
  | val (v : JSVal) : DisplayValue
  | markup (s : String) : DisplayValue
  | image (src : String) : DisplayValue
deriving DecidableEq, Repr

/-- `true` exactly on the plain-value constructor. -/
def DisplayValue.isPlainVal : DisplayValue → Bool
  | .val _ => true
  | _ => false

/-- `_getValue(row, header)`: falsy/absent values fall back to
`header.default ?? ''` before any type dispatch; otherwise dispatch on
`header.type` (`date`, `html`, `image`, or plain). -/
def getValue (dateFormat : Option String) (row : RowMap) (header : Header) :
    DisplayValue :=
  match row.get header.key with
  | none => .val (header.default.getD (.str ""))
  | some v =>
      if !truthy v then .val (header.default.getD (.str ""))
      else if header.type = "date" then .val (.str (momentFormat dateFormat v))
      else if header.type = "html" then .markup (jsToString v)
      else if header.type = "image" then .image (jsToString v)
      else .val v

/- ## The render planner -/

/-- A cell in the header row (`_getHeaders`): the empty placeholder `<th></th>`
prepended when `hasHiddenRows`, or a labelled `<th>` for a schema entry. -/
inductive HeaderCell where
  | placeholder : HeaderCell
  | label (name : String) : HeaderCell
deriving DecidableEq, Repr

/-- `true` exactly on a labelled header cell. -/
def HeaderCell.isLabel : HeaderCell → Bool
  | .label _ => true
  | .placeholder => false

/-- `this.data.some((row) => Array.isArray(row))`. -/
def hasHiddenRows (data : List Row) : Bool := data.any Row.isGrouped

/-- `_getHeaders()`: an empty placeholder when `hasHiddenRows`, then one
labelled cell per schema entry, in schema order. -/
def getHeaders (hh : Bool) (schema : List Header) : List HeaderCell :=
  (if hh then [HeaderCell.placeholder] else []) ++
    schema.map (fun h => HeaderCell.label h.name)

/-- The grid-template set on the host in `render()`:
`1rem repeat(S.length, 1fr)` when `hasHiddenRows`, else `repeat(S.length, 1fr)`,
as the list of column tracks. -/
def gridTemplateFor (hh : Bool) (schemaLen : Nat) : List String :=
  (if hh then ["1rem"] else []) ++ List.replicate schemaLen "1fr"

/-- A rendered `<td>` with its class flags and content.  `expander`, `expanded`,
`subrow`, `hidden` and `nodata` model the CSS classes of the same names. -/
structure Cell where
  expander : Bool := false
  expanded : Bool := false
  subrow : Bool := false
  hidden : Bool := false
  nodata : Bool := false
  content : Option DisplayValue := none
deriving DecidableEq, Repr

/-- A simple (non-array) row in `_getRows`: an empty alignment cell when some
other row has hidden sub-rows, then one formatted cell per schema column. -/
def renderSimpleRow (hh : Bool) (df : Option String) (schema : List Header)
    (r : RowMap) : List Cell :=
  (if hh then [({} : Cell)] else []) ++
    schema.map (fun h => { content := some (getValue df r h) })

/-- One element of a grouped row in `_getRows`: the leading toggle cell
(class `expander` at index 0, `subrow hidden` at index ≥ 1), then one
formatted cell per schema column (class `subrow hidden` at index ≥ 1). -/
def renderGroupedSub (df : Option String) (schema : List Header) (index : Nat)
    (sub : RowMap) : List Cell :=
  { expander := index = 0, subrow := index ≠ 0, hidden := index ≠ 0 } ::
    schema.map (fun h =>
      { subrow := index ≠ 0, hidden := index ≠ 0,
        content := some (getValue df sub h) })

/-- A grouped (array) row in `_getRows`: all sub-elements rendered into one
`<tr>`, in order. -/
def renderGroupedRow (df : Option String) (schema : List Header)
    (subs : List RowMap) : List Cell :=
  ((List.range subs.length).zip subs).map
    (fun p => renderGroupedSub df schema p.1 p.2) |>.flatten

/-- `_getRows()`: one placeholder `nodata` row when the data is empty,
otherwise one `<tr>` per top-level data entry. -/
def getRows (df : Option String) (schema : List Header) (data : List Row) :
    List (List Cell) :=
  if data.length = 0 then [[{ nodata := true }]]
  else
    data.map (fun row =>
      match row with
      | .simple r => renderSimpleRow (hasHiddenRows data) df schema r
      | .grouped subs => renderGroupedRow df schema subs)

/-- The output of `render()`: the grid template set on the host, the header
row, the body rows, and the footer text. -/
structure RenderedTable where
  gridTemplate : List String
  headerRow : List HeaderCell
  body : List (List Cell)
  footer : String
deriving DecidableEq, Repr

/-- `render()`: recompute `hasHiddenRows`, set the grid template, and assemble
header, body and the `"${data.length} records"` footer. -/
def render (df : Option String) (schema : List Header) (data : List Row) :
    RenderedTable :=
  let hh := hasHiddenRows data
  { gridTemplate := gridTemplateFor hh schema.length
    headerRow := getHeaders hh schema
    body := getRows df schema data
    footer := toString data.length ++ " records" }

/- ## The expander click handler `_handleToggleExpandClick` -/

/-- The `querySelectorAll` over `.subrow` followed by `classList.toggle` in
`_handleToggleExpandClick`: flip `hidden` on every cell of the row tagged
`subrow`. -/
def toggleSubrowsHidden (row : List Cell) : List Cell :=
  row.map (fun c => if c.subrow then { c with hidden := !c.hidden } else c)

/-- `expander.classList.toggle('expanded')`: flip `expanded` on the cell at
the clicked index. -/
def toggleExpandedAt : List Cell → Nat → List Cell
  | [], _ => []
  | c :: rest, 0 => { c with expanded := !c.expanded } :: rest
  | c :: rest, Nat.succ i => c :: toggleExpandedAt rest i

/-- `_handleToggleExpandClick(e)` on the body: the click target is cell `i` of
row `r`; its enclosing row has its `subrow` cells' `hidden` flag toggled, and
the target's `expanded` flag toggled.  Other rows are untouched. -/
def handleToggleExpandClick : List (List Cell) → Nat → Nat → List (List Cell)
  | [], _, _ => []
  | row :: rest, 0, i => toggleExpandedAt (toggleSubrowsHidden row) i :: rest
  | row :: rest, Nat.succ r, i => row :: handleToggleExpandClick rest r i

/- ## The mutation watcher (`_watchObject`, `constructor`, `willUpdate`) -/

/-- A watched wrapper as produced by `_watchObject(obj, eventName)`: the
wrapped value, the event name fixed at wrap time, and an allocation id that
distinguishes distinct wrapper objects. -/
structure Watched (α : Type) where
  value : α
  eventName : String
  id : Nat
deriving DecidableEq, Repr

/-- The payload of a dispatched `CustomEvent`: the current root watched
value (`detail: obj`). -/
inductive Payload where
  | dataVal (d : List Row) : Payload
  | schemaVal (s : List Header) : Payload
deriving DecidableEq, Repr

/-- A `CustomEvent` dispatched to the external DOM. -/
structure EventRecord where
  name : String
  payload : Payload
deriving DecidableEq, Repr

/-- The component's observable state: the two watched properties, the
`hasHiddenRows` field, the `date-format` property, the log of dispatched
events, the number of `requestUpdate` calls, and a counter supplying fresh
wrapper ids for `_watchObject`. -/
structure Component where
  data : Watched (List Row)
  schema : Watched (List Header)
  hasHiddenRowsField : Bool
  dateFormat : Option String
  events : List EventRecord
  updateRequests : Nat
  nextWrapId : Nat
deriving DecidableEq, Repr

/-- The `constructor()`: wrap `[]` as `data` with event name `data-change`,
wrap `[]` as `schema` with event name `schema-change`, clear
`hasHiddenRows`. -/
def ReactiveTable.init : Component :=
  { data := ⟨[], "data-change", 0⟩
    schema := ⟨[], "schema-change", 1⟩
    hasHiddenRowsField := false
    dateFormat := none
    events := []
    updateRequests := 0
    nextWrapId := 2 }

/-- One in-place mutation of the watched `data` value, as intercepted by the
`on-change` callback in `_watchObject`: the value is updated in place, then
the callback dispatches one `CustomEvent` named by the wrapper's event name
carrying the current root value, then calls `this.requestUpdate()` once. -/
def mutateData (c : Component) (m : List Row → List Row) : Component :=
  let newVal := m c.data.value
  { c with
    data := { c.data with value := newVal }
    events := c.events ++ [⟨c.data.eventName, .dataVal newVal⟩]
    updateRequests := c.updateRequests + 1 }

/-- One in-place mutation of the watched `schema` value (same callback,
wired with event name `schema-change` at wrap time). -/
def mutateSchema (c : Component) (m : List Header → List Header) : Component :=
  let newVal := m c.schema.value
  { c with
    schema := { c.schema with value := newVal }
    events := c.events ++ [⟨c.schema.eventName, .schemaVal newVal⟩]
    updateRequests := c.updateRequests + 1 }

/-- A sequence of in-place `data` mutations, each firing independently. -/
def applyDataMutations (c : Component) (ms : List (List Row → List Row)) :
    Component :=
  ms.foldl mutateData c

/-- A sequence of in-place `schema` mutations, each firing independently. -/
def applySchemaMutations (c : Component)
    (ss : List (List Header → List Header)) : Component :=
  ss.foldl mutateSchema c

/-- The events a sequence of mutations is expected to dispatch: one per
mutation, named by the wrap-time event name, carrying the root value as it
stands right after that mutation. -/
def expectedDataEvents (name : String) (v : List Row) :
    List (List Row → List Row) → List EventRecord
  | [] => []
  | m :: ms => ⟨name, .dataVal (m v)⟩ :: expectedDataEvents name (m v) ms

/-- Expected events for a sequence of `schema` mutations. -/
def expectedSchemaEvents (name : String) (v : List Header) :
    List (List Header → List Header) → List EventRecord
  | [] => []
  | m :: ms => ⟨name, .schemaVal (m v)⟩ :: expectedSchemaEvents name (m v) ms

/-- External assignment of the `data` property followed by the `willUpdate`
hook: `changed.has('data')` holds and the assigned value is an array, hence
truthy, so `willUpdate` replaces the stored value with a fresh watched
wrapper `this._watchObject(this.data, 'data-change')`. -/
def setData (c : Component) (d : List Row) : Component :=
  { c with
    data := ⟨d, "data-change", c.nextWrapId⟩
    nextWrapId := c.nextWrapId + 1 }

/-- External assignment of the `schema` property followed by `willUpdate`,
wrapping it as `this._watchObject(this.schema, 'schema-change')`. -/
def setSchema (c : Component) (s : List Header) : Component :=
  { c with
    schema := ⟨s, "schema-change", c.nextWrapId⟩
    nextWrapId := c.nextWrapId + 1 }

/-- Every wrapper held by the component was allocated below the fresh-id
counter; holds for `ReactiveTable.init` and is preserved by every
operation. -/
def WrapIdsFresh (c : Component) : Prop :=
  c.data.id < c.nextWrapId ∧ c.schema.id < c.nextWrapId

/-- C2: for all schema `S` and data `D`, the render step computes
`hasHiddenRows` as true iff at least one top-level element of `D` is a grouped
(array) row, and the grid template holds `S.length` columns plus one extra
leading narrow `1rem` column exactly when `hasHiddenRows` is true. -/
theorem hasHiddenRows_grid_template (df : Option String) (schema : List Header)
    (data : List Row) :
    (hasHiddenRows data = true ↔ ∃ r ∈ data, r.isGrouped = true) ∧
    (render df schema data).gridTemplate.length =
      schema.length + (if hasHiddenRows data then 1 else 0) ∧
    ((render df schema data).gridTemplate.head? = some "1rem" ↔
      hasHiddenRows data = true) := by
  refine ⟨by simp [hasHiddenRows, List.any_eq_true], ?_, ?_⟩
  · cases h : hasHiddenRows data <;>
      simp [render, gridTemplateFor, h, Nat.add_comm]
  · cases h : hasHiddenRows data <;>
      simp [render, gridTemplateFor, h]
    cases schema with
    | nil => simp
    | cons a l => simp [List.replicate_succ]

/-- Labelled header cells pass the `isLabel` filter unchanged. -/
theorem filter_isLabel_map (schema : List Header) :
    (schema.map (fun h => HeaderCell.label h.name)).filter HeaderCell.isLabel =
      schema.map (fun h => HeaderCell.label h.name) := by
  induction schema with
  | nil => rfl
  | cons a l ih => simp [HeaderCell.isLabel, ih]

/-- C3: the rendered header row contains exactly `S.length` labelled header
cells, one per schema entry in schema order, regardless of the contents of `D`
(the only other cell is the empty placeholder prepended when
`hasHiddenRows`). -/
theorem header_cells_match_schema (df : Option String) (schema : List Header)
    (data : List Row) :
    ((render df schema data).headerRow.filter HeaderCell.isLabel) =
      schema.map (fun h => HeaderCell.label h.name) ∧
    ((render df schema data).headerRow.countP HeaderCell.isLabel) = schema.length ∧
    (render df schema data).headerRow.length =
      schema.length + (if hasHiddenRows data then 1 else 0) := by
  refine ⟨?_, ?_, ?_⟩ <;>
    cases h : hasHiddenRows data <;>
      simp [render, getHeaders, h, HeaderCell.isLabel,
        List.countP_eq_length_filter, filter_isLabel_map, Nat.add_comm]

/-- C6: the rendered footer reports exactly `D.length`, the number of
top-level entries of `D`; a grouped row counts as one entry regardless of how
many sub-rows it contains. -/
theorem footer_counts_top_level_entries (df : Option String)
    (schema : List Header) (data : List Row) (subs : List RowMap)
    (rest : List Row) :
    (render df schema data).footer = toString data.length ++ " records" ∧
    (render df schema (Row.grouped subs :: rest)).footer =
      toString (rest.length + 1) ++ " records" := by
  refine ⟨rfl, ?_⟩
  simp [render, List.length_cons]

/-- C8: when `data` is the empty sequence `[]`, the rendered body is exactly
one informational `nodata` placeholder row and no data rows. -/
theorem empty_data_placeholder (df : Option String) (schema : List Header) :
    (render df schema []).body = [[{ nodata := true }]] := rfl

/-- C4: if the field value at `column.key` is absent or falsy (empty string,
`0`, `null`, … — no distinction made), the value formatter returns
`column.default` when provided and the empty string otherwise. -/
theorem falsy_value_returns_default (df : Option String) (row : RowMap)
    (header : Header) (h : falsyAt row header.key = true) :
    getValue df row header = .val (header.default.getD (.str "")) := by
  unfold getValue
  unfold falsyAt at h
  cases hg : row.get header.key with
  | none => simp
  | some v =>
      rw [hg] at h
      simp only [] at h
      simp [h]

/-- Witness for C4: a raw value of `0`, and likewise a raw value of `\"\"`,
with `column.default = \"N/A\"` formats to `\"N/A\"`. -/
theorem falsy_value_returns_default_witness :
    (falsyAt [("x", JSVal.num 0)] "x" = true ∧
      getValue none [("x", JSVal.num 0)] ⟨"x", "X", "plain", some (.str "N/A")⟩ =
        .val (.str "N/A")) ∧
    (falsyAt [("x", JSVal.str "")] "x" = true ∧
      getValue none [("x", JSVal.str "")] ⟨"x", "X", "plain", some (.str "N/A")⟩ =
        .val (.str "N/A")) :=
  ⟨⟨by decide, falsy_value_returns_default none _ _ (by decide)⟩,
    ⟨by decide, falsy_value_returns_default none _ _ (by decide)⟩⟩

/-- C5: for a `date` column with a truthy raw value, the formatter renders
via the configured date-format string when set and as ISO-8601 otherwise; in
particular `\"2024-01-15T00:00:00Z\"` yields `\"2024-01-15T00:00:00.000Z\"`
with no format, and `\"2024/01/15\"` with format `\"YYYY/MM/DD\"`. -/
theorem date_column_formatting :
    (∀ (df : Option String) (k nm : String) (d : Option JSVal) (s : String),
      s ≠ "" →
      getValue df [(k, JSVal.str s)] ⟨k, nm, "date", d⟩ =
        .val (.str (momentFormat df (.str s)))) ∧
    momentFormat none (.str "2024-01-15T00:00:00Z") =
      "2024-01-15T00:00:00.000Z" ∧
    momentFormat (some "YYYY/MM/DD") (.str "2024-01-15T00:00:00Z") =
      "2024/01/15" := by
  refine ⟨?_, by decide, by decide⟩
  intro df k nm d s hs
  have hget : RowMap.get [(k, JSVal.str s)] k = some (JSVal.str s) := by
    simp [RowMap.get]
  unfold getValue
  rw [hget]
  simp [truthy, hs]

/-- Witness for C5: the general date-dispatch statement applied to the
concrete ISO input with no configured date-format. -/
theorem date_column_formatting_witness :
    getValue none [("d", JSVal.str "2024-01-15T00:00:00Z")]
        ⟨"d", "Date", "date", none⟩ =
      .val (.str (momentFormat none (.str "2024-01-15T00:00:00Z"))) :=
  date_column_formatting.1 none "d" "Date" none "2024-01-15T00:00:00Z" (by decide)

/-- C10: for every column type, an absent or falsy field value makes the
formatter return the fallback (`column.default` or `\"\"`) as a plain
unformatted value — independent of the column type and of the date-format, and
never as markup or an image — because the falsy check precedes the type
dispatch. -/
theorem falsy_fallback_ignores_type (df df2 : Option String) (row : RowMap)
    (k nm nm2 t t2 : String) (d : Option JSVal)
    (h : falsyAt row k = true) :
    getValue df row ⟨k, nm, t, d⟩ = getValue df2 row ⟨k, nm2, t2, d⟩ ∧
    (getValue df row ⟨k, nm, t, d⟩).isPlainVal = true ∧
    getValue df row ⟨k, nm, t, d⟩ = .val (d.getD (.str "")) := by
  unfold getValue
  unfold falsyAt at h
  cases hg : row.get k with
  | none => simp [DisplayValue.isPlainVal]
  | some v =>
      rw [hg] at h
      simp only [] at h
      simp [h, DisplayValue.isPlainVal]

/-- Witness for C10: an empty-string raw value under an `html`-typed column
gives the same plain fallback as under an `image`-typed column. -/
theorem falsy_fallback_ignores_type_witness :
    (falsyAt [("x", JSVal.str "")] "x" = true) ∧
    getValue none [("x", JSVal.str "")] ⟨"x", "X", "html", some (.str "<b>hi</b>")⟩ =
      getValue (some "YYYY/MM/DD") [("x", JSVal.str "")]
        ⟨"x", "Y", "image", some (.str "<b>hi</b>")⟩ :=
  ⟨by decide,
    (falsy_fallback_ignores_type none (some "YYYY/MM/DD") [("x", JSVal.str "")]
      "x" "X" "Y" "html" "image" (some (.str "<b>hi</b>")) (by decide)).1⟩

/-- Index-wise characterisation of `toggleExpandedAt`. -/
theorem toggleExpandedAt_getElem? (row : List Cell) (i ci : Nat) :
    (toggleExpandedAt row i)[ci]? =
      row[ci]?.map (fun c =>
        if ci = i then { c with expanded := !c.expanded } else c) := by
  induction row generalizing i ci with
  | nil => simp [toggleExpandedAt]
  | cons c rest ih =>
      cases i with
      | zero =>
          cases ci with
          | zero => simp [toggleExpandedAt]
          | succ n => simp [toggleExpandedAt]
      | succ m =>
          cases ci with
          | zero => simp [toggleExpandedAt]
          | succ n => simp [toggleExpandedAt, ih]

/-- Index-wise characterisation of `handleToggleExpandClick` at row level. -/
theorem handleToggleExpandClick_getElem? (body : List (List Cell))
    (r i r2 : Nat) :
    (handleToggleExpandClick body r i)[r2]? =
      body[r2]?.map (fun row =>
        if r2 = r then toggleExpandedAt (toggleSubrowsHidden row) i else row) := by
  induction body generalizing r r2 with
  | nil => simp [handleToggleExpandClick]
  | cons row rest ih =>
      cases r with
      | zero =>
          cases r2 with
          | zero => simp [handleToggleExpandClick]
          | succ n => simp [handleToggleExpandClick]
      | succ m =>
          cases r2 with
          | zero => simp [handleToggleExpandClick]
          | succ n => simp [handleToggleExpandClick, ih]

/-- `handleToggleExpandClick` keeps the number of rows. -/
theorem handleToggleExpandClick_length (body : List (List Cell)) (r i : Nat) :
    (handleToggleExpandClick body r i).length = body.length := by
  induction body generalizing r with
  | nil => rfl
  | cons row rest ih =>
      cases r with
      | zero => simp [handleToggleExpandClick]
      | succ m => simp [handleToggleExpandClick, ih]

/-- C9: activating the expander control at cell `i` of row `r` toggles the
hidden flag of exactly the `subrow`-tagged cells of row `r` and the expanded
state of exactly the clicked cell; every cell of every other row, every
non-subrow cell's hidden flag, and all other flags and contents are
unchanged. -/
theorem toggle_expander_effect (body : List (List Cell)) (r i r2 ci : Nat) :
    ((handleToggleExpandClick body r i)[r2]?.bind (fun row => row[ci]?)) =
      ((body[r2]?.bind (fun row => row[ci]?)).map (fun c =>
        if r2 = r then
          { c with
            hidden := if c.subrow then !c.hidden else c.hidden
            expanded := if ci = i then !c.expanded else c.expanded }
        else c)) ∧
    (handleToggleExpandClick body r i).length = body.length := by
  refine ⟨?_, handleToggleExpandClick_length body r i⟩
  rw [handleToggleExpandClick_getElem?]
  cases hb : body[r2]? with
  | none => simp
  | some row =>
      by_cases hr : r2 = r
      · subst hr
        simp only [eq_self_iff_true, ite_true, Option.map_some', Option.some_bind]
        rw [toggleExpandedAt_getElem?]
        simp only [toggleSubrowsHidden, List.getElem?_map, Option.map_map]
        cases hc : row[ci]? with
        | none => simp
        | some c =>
            simp only [Option.map_some', Function.comp]
            cases c with
            | mk e ex sr hd nd ct =>
                by_cases hsub : sr = true <;> by_cases hci : ci = i <;>
                  simp [hsub, hci]
      · simp [hr]

/-- Behaviour of a sequence of watched `data` mutations, by induction. -/
theorem applyDataMutations_spec (ms : List (List Row → List Row)) :
    ∀ c : Component,
      (applyDataMutations c ms).events =
        c.events ++ expectedDataEvents c.data.eventName c.data.value ms ∧
      (applyDataMutations c ms).updateRequests = c.updateRequests + ms.length ∧
      (applyDataMutations c ms).data.value =
        ms.foldl (fun v m => m v) c.data.value ∧
      (applyDataMutations c ms).data.eventName = c.data.eventName := by
  induction ms with
  | nil => intro c; simp [applyDataMutations, expectedDataEvents]
  | cons m rest ih =>
      intro c
      have h := ih (mutateData c m)
      simp only [applyDataMutations, List.foldl_cons] at h ⊢
      refine ⟨?_, ?_, ?_, ?_⟩
      · rw [h.1]
        simp [mutateData, expectedDataEvents, List.append_assoc]
      · rw [h.2.1]
        simp [mutateData]
        omega
      · rw [h.2.2.1]
        simp [mutateData]
      · rw [h.2.2.2]
        simp [mutateData]

/-- Behaviour of a sequence of watched `schema` mutations, by induction. -/
theorem applySchemaMutations_spec (ss : List (List Header → List Header)) :
    ∀ c : Component,
      (applySchemaMutations c ss).events =
        c.events ++ expectedSchemaEvents c.schema.eventName c.schema.value ss ∧
      (applySchemaMutations c ss).updateRequests = c.updateRequests + ss.length ∧
      (applySchemaMutations c ss).schema.value =
        ss.foldl (fun v m => m v) c.schema.value ∧
      (applySchemaMutations c ss).schema.eventName = c.schema.eventName := by
  induction ss with
  | nil => intro c; simp [applySchemaMutations, expectedSchemaEvents]
  | cons m rest ih =>
      intro c
      have h := ih (mutateSchema c m)
      simp only [applySchemaMutations, List.foldl_cons] at h ⊢
      refine ⟨?_, ?_, ?_, ?_⟩
      · rw [h.1]
        simp [mutateSchema, expectedSchemaEvents, List.append_assoc]
      · rw [h.2.1]
        simp [mutateSchema]
        omega
      · rw [h.2.2.1]
        simp [mutateSchema]
      · rw [h.2.2.2]
        simp [mutateSchema]

/-- C1: every in-place mutation of the watched `data` (or `schema`) value
makes the watch callback dispatch exactly one event named by the wrap-time
event name (`data-change` for data, `schema-change` for schema) carrying the
current root watched value, and request exactly one re-render; a sequence of
mutations fires one independent event and one update request per mutation,
with no batching or coalescing. -/
theorem mutation_fires_one_event_and_one_update (c : Component)
    (ms : List (List Row → List Row)) (ss : List (List Header → List Header)) :
    (applyDataMutations c ms).events =
      c.events ++ expectedDataEvents c.data.eventName c.data.value ms ∧
    (applyDataMutations c ms).updateRequests = c.updateRequests + ms.length ∧
    (applySchemaMutations c ss).events =
      c.events ++ expectedSchemaEvents c.schema.eventName c.schema.value ss ∧
    (applySchemaMutations c ss).updateRequests = c.updateRequests + ss.length ∧
    ReactiveTable.init.data.eventName = "data-change" ∧
    ReactiveTable.init.schema.eventName = "schema-change" := by
  have hd := applyDataMutations_spec ms c
  have hs := applySchemaMutations_spec ss c
  exact ⟨hd.1, hd.2.1, hs.1, hs.2.1, rfl, rfl⟩

/-- C7: after every assignment of `data` or `schema` — including the initial
default empty sequence set by the constructor — the stored value is a freshly
created watched wrapper of the assigned value (a wrapper id never used
before), replacing the previous wrapper rather than mutating it; the other
property is untouched. -/
theorem wrapper_replaced_on_assignment (c : Component) (d : List Row)
    (s : List Header) (h : WrapIdsFresh c) :
    ReactiveTable.init.data = ⟨[], "data-change", 0⟩ ∧
    ReactiveTable.init.schema = ⟨[], "schema-change", 1⟩ ∧
    WrapIdsFresh ReactiveTable.init ∧
    (setData c d).data.value = d ∧
    (setData c d).data.eventName = "data-change" ∧
    (setData c d).data.id ≠ c.data.id ∧
    (setData c d).schema = c.schema ∧
    WrapIdsFresh (setData c d) ∧
    (setSchema c s).schema.value = s ∧
    (setSchema c s).schema.eventName = "schema-change" ∧
    (setSchema c s).schema.id ≠ c.schema.id ∧
    (setSchema c s).data = c.data ∧
    WrapIdsFresh (setSchema c s) := by
  obtain ⟨h1, h2⟩ := h
  refine ⟨rfl, rfl, ⟨by decide, by decide⟩, rfl, rfl, ?_, rfl, ⟨?_, ?_⟩,
    rfl, rfl, ?_, rfl, ⟨?_, ?_⟩⟩ <;>
    simp [setData, setSchema] <;> omega

/-- Witness for C7: assigning a concrete one-row data value to a freshly
constructed component stores that value in the new wrapper. -/
theorem wrapper_replaced_on_assignment_witness :
    (setData ReactiveTable.init [Row.simple [("a", JSVal.num 1)]]).data.value =
      [Row.simple [("a", JSVal.num 1)]] :=
  (wrapper_replaced_on_assignment ReactiveTable.init
    [Row.simple [("a", JSVal.num 1)]] [] ⟨by decide, by decide⟩).2.2.2.1
